import Mathlib

/-!
Verification of `search_dependencies.py` (Endor-Solutions-Architecture/search_dependencies).

Strings are modelled as `List Char` (named `Str`), so that the character-level
splitting performed by the Python code (`str.split('://', 1)` and
`str.rsplit('@', 1)`) can be embedded directly and reasoned about.
-/

set_option autoImplicit false

abbrev Str := List Char

/-- The ecosystem separator `"://"` used by `parse_dependency`. -/
def ecoSep : Str := [':', '/', '/']

/-- Boolean test that `p` is a prefix of `l` (character-wise equality). -/
def isPre : Str → Str → Bool
  | [], _ => true
  | _ :: _, [] => false
  | a :: as, b :: bs => a == b && isPre as bs

/-- Boolean test that the pattern `pat` occurs as a contiguous substring,
mirroring Python's `pat in s`. -/
def hasSub (pat : Str) : Str → Bool
  | [] => pat.isEmpty
  | c :: rest => isPre pat (c :: rest) || hasSub pat rest

/-- Split on the FIRST occurrence of `sep`, mirroring Python's
`s.split(sep, 1)` (returning `none` when `sep` does not occur, which the
Python code guards with `sep in s`). -/
def splitOnceOn (sep : Str) : Str → Option (Str × Str)
  | [] => none
  | c :: rest =>
    if isPre sep (c :: rest) then some ([], (c :: rest).drop sep.length)
    else
      match splitOnceOn sep rest with
      | some (a, b) => some (c :: a, b)
      | none => none

/-- Split on the LAST occurrence of the character `c`, mirroring Python's
`s.rsplit(c, 1)` (returning `none` when `c` does not occur, which the
Python code guards with `c in s`). -/
def splitLastOn (c : Char) : Str → Option (Str × Str)
  | [] => none
  | a :: rest =>
    match splitLastOn c rest with
    | some (pre, post) => some (a :: pre, post)
    | none => if a == c then some ([], rest) else none

/-- The structured dependency identifier built by `parse_dependency`
(dict with keys ecosystem / dependency / version / full_name). -/
structure DepInfo where
  ecosystem : Str
  dependency : Str
  version : Str
  full_name : Str
  deriving DecidableEq

/-- Embedding of `parse_dependency` (src/search_dependencies.py lines 60-82):
split on the first `"://"` (error when absent), split the remainder on the
last `"@"` (error when absent); the `try/except` turns every failure into
`None`, modelled as `none`. -/
def parse_dependency (s : Str) : Option DepInfo :=
  match splitOnceOn ecoSep s with
  | none => none
  | some (ecosystem, rest) =>
    match splitLastOn '@' rest with
    | none => none
    | some (dependency, version) =>
      some { ecosystem := ecosystem, dependency := dependency, version := version,
             full_name := ecosystem ++ ecoSep ++ dependency }

/-- Embedding of the specifier-collection loop in `main`
(src/search_dependencies.py lines 294-299): valid parses are appended in
order, invalid tokens are skipped. -/
def collectDeps (tokens : List Str) : List DepInfo :=
  tokens.foldl
    (fun acc t =>
      match parse_dependency t with
      | some d => acc ++ [d]
      | none => acc)
    []

theorem isPre_append_self (p t : Str) : isPre p (p ++ t) = true := by
  induction p with
  | nil => rfl
  | cons a as ih => simp [isPre, ih]

theorem drop_length_append (p t : Str) : (p ++ t).drop p.length = t := by
  induction p with
  | nil => rfl
  | cons a as ih => simp [ih]

theorem isPre_ecoSep_shift (c : Char) (e t : Str) :
    isPre ecoSep ((c :: e) ++ ecoSep ++ t) = isPre ecoSep ((c :: e) ++ [':', '/']) := by
  match e with
  | [] => simp [ecoSep, isPre]
  | [c₂] => simp [ecoSep, isPre]
  | c₂ :: c₃ :: e' => simp [ecoSep, isPre]

theorem splitOnceOn_junction (e t : Str)
    (h : hasSub ecoSep (e ++ [':', '/']) = false) :
    splitOnceOn ecoSep (e ++ (ecoSep ++ t)) = some (e, t) := by
  induction e with
  | nil =>
    simp [ecoSep, splitOnceOn, isPre]
  | cons c e' ih =>
    simp only [hasSub, Bool.or_eq_false_iff] at h
    have hcond : isPre ecoSep (c :: (e' ++ (ecoSep ++ t))) = false := by
      have hs := isPre_ecoSep_shift c e' t
      simp only [List.cons_append, List.append_assoc] at hs
      rw [hs]
      simpa using h.1
    have hrec := ih h.2
    simp only [List.cons_append, splitOnceOn, List.append_eq, hcond, Bool.false_eq_true,
      if_false, hrec]

theorem splitLastOn_eq_none (c : Char) (v : Str) (h : c ∉ v) :
    splitLastOn c v = none := by
  induction v with
  | nil => rfl
  | cons a v' ih =>
    have ha : a ≠ c := fun hac => h (hac ▸ List.mem_cons_self a v')
    have hv : c ∉ v' := fun hm => h (List.mem_cons_of_mem a hm)
    simp [splitLastOn, ih hv, beq_iff_eq, ha]

theorem splitLastOn_junction (c : Char) (d v : Str) (h : c ∉ v) :
    splitLastOn c (d ++ c :: v) = some (d, v) := by
  induction d with
  | nil => simp [splitLastOn, splitLastOn_eq_none c v h]
  | cons a d' ih => simp [splitLastOn, ih]

/-! ## Raw objects returned by the QUERY API

Each structure models one level of the nested JSON dictionaries the Python
code navigates with `dict.get(key, default)`; a missing key is `none`. -/

/-- `meta` block of a joined Project object (`{uuid, meta.name}`). -/
structure MetaInfo where
  name : Option Str
  deriving DecidableEq

/-- A joined Project object under `references.Project.list.objects`. -/
structure ProjectObj where
  meta : Option MetaInfo
  deriving DecidableEq

/-- The `list` block of a reference entry (`{objects}`). -/
structure RefListBlock where
  objects : Option (List ProjectObj)
  deriving DecidableEq

/-- One entry of the `meta.references` map (`{list: {objects}}`). -/
structure ProjectRef where
  list : Option RefListBlock
  deriving DecidableEq

/-- The `meta` block of a raw DependencyMetadata object (`{references}`);
the references map is modelled as an association list. -/
structure MetaBlock where
  references : Option (List (Str × ProjectRef))
  deriving DecidableEq

/-- `tenant_meta` block; the JSON key `namespace` is named `nspace` because
`namespace` is a Lean keyword. -/
structure TenantMeta where
  nspace : Option Str
  deriving DecidableEq

/-- `spec.dependency_data` block. -/
structure DepData where
  package_name : Option Str
  resolved_version : Option Str
  scope : Option Str
  deriving DecidableEq

/-- `spec.importer_data` block. -/
structure ImporterData where
  project_uuid : Option Str
  package_version_name : Option Str
  deriving DecidableEq

/-- `spec` block of a raw object. -/
structure SpecBlock where
  dependency_data : Option DepData
  importer_data : Option ImporterData
  deriving DecidableEq

/-- One raw joined object from `spec.query_response.list.objects`. -/
structure RawObject where
  spec : Option SpecBlock
  meta : Option MetaBlock
  tenant_meta : Option TenantMeta
  deriving DecidableEq

def emptyMetaInfo : MetaInfo := ⟨none⟩
def emptyRefListBlock : RefListBlock := ⟨none⟩
def emptyMetaBlock : MetaBlock := ⟨none⟩
def emptyTenantMeta : TenantMeta := ⟨none⟩
def emptyDepData : DepData := ⟨none, none, none⟩
def emptyImporterData : ImporterData := ⟨none, none⟩
def emptySpecBlock : SpecBlock := ⟨none, none⟩

/-- The flat usage record built for each raw object
(src/search_dependencies.py lines 168-176). -/
structure UsageRecord where
  nspace : Str
  project_uuid : Str
  project_name : Str
  dependency_name : Str
  dependency_version : Str
  dependency_scope : Str
  parent_package_version_name : Str
  deriving DecidableEq

/-- Association-list lookup mirroring `'Project' in meta_refs` /
`meta_refs['Project']` on the references dict. -/
def lookupKey (k : Str) : List (Str × ProjectRef) → Option ProjectRef
  | [] => none
  | (k', v) :: rest => if k' = k then some v else lookupKey k rest

/-- The literal reference kind `"Project"`. -/
def projectKeyLit : Str := "Project".toList

/-- Embedding of the per-object normalization in the body of the pagination
loop (src/search_dependencies.py lines 148-177).  Each `dict.get(k, d)` is
`Option.getD`; `obj.get('tenant_meta') or {}` maps absence to the empty
block; `project_data` is `none` when the `Project` reference is absent or
its object list is empty. -/
def normalizeObj (initial_namespace : Str) (obj : RawObject) : UsageRecord :=
  let dep_data := ((obj.spec.getD emptySpecBlock).dependency_data).getD emptyDepData
  let importer_data := ((obj.spec.getD emptySpecBlock).importer_data).getD emptyImporterData
  let tenant_meta := obj.tenant_meta.getD emptyTenantMeta
  let nspace := tenant_meta.nspace.getD initial_namespace
  let meta_refs := ((obj.meta.getD emptyMetaBlock).references).getD []
  let project_data : Option Str :=
    match lookupKey projectKeyLit meta_refs with
    | some project_ref =>
      match ((project_ref.list.getD emptyRefListBlock).objects).getD [] with
      | [] => none
      | project_obj :: _ => some (((project_obj.meta.getD emptyMetaInfo).name).getD [])
    | none => none
  { nspace := nspace
    project_uuid := importer_data.project_uuid.getD []
    project_name := project_data.getD []
    dependency_name := dep_data.package_name.getD []
    dependency_version := dep_data.resolved_version.getD []
    dependency_scope := dep_data.scope.getD []
    parent_package_version_name := importer_data.package_version_name.getD [] }

/-- The `for obj in objects` loop appending one record per raw object to the
running accumulator `all_results`. -/
def processPage (initial_namespace : Str) (objs : List RawObject) (acc : List UsageRecord) :
    List UsageRecord :=
  objs.foldl (fun a obj => a ++ [normalizeObj initial_namespace obj]) acc

/-! ## Server responses and the pagination loop -/

/-- `spec.query_response.list.response` block (`{next_page_token}`). -/
structure PageCursor where
  next_page_token : Option Str
  deriving DecidableEq

/-- `spec.query_response.list` block. -/
structure RespList where
  objects : Option (List RawObject)
  response : Option PageCursor
  deriving DecidableEq

/-- `spec.query_response` block. -/
structure QueryResponseBlock where
  list : Option RespList
  deriving DecidableEq

/-- `spec` block of a response body. -/
structure RespSpec where
  query_response : Option QueryResponseBlock
  deriving DecidableEq

/-- A parsed JSON response body. -/
structure ResponseData where
  spec : Option RespSpec
  deriving DecidableEq

def emptyPageCursor : PageCursor := ⟨none⟩
def emptyRespList : RespList := ⟨none, none⟩
def emptyQueryResponseBlock : QueryResponseBlock := ⟨none⟩
def emptyRespSpec : RespSpec := ⟨none⟩

/-- `data.get('spec', {}).get('query_response', {}).get('list', {}).get('objects', [])`
(src/search_dependencies.py lines 144-145). -/
def objectsOf (d : ResponseData) : List RawObject :=
  ((((d.spec.getD emptyRespSpec).query_response.getD emptyQueryResponseBlock).list.getD
      emptyRespList).objects).getD []

/-- `...get('response', {}).get('next_page_token')`
(src/search_dependencies.py line 184). -/
def tokenOf (d : ResponseData) : Option Str :=
  ((((d.spec.getD emptyRespSpec).query_response.getD emptyQueryResponseBlock).list.getD
      emptyRespList).response.getD emptyPageCursor).next_page_token

/-- Python truthiness test `if not next_page_token` (line 185): both a
missing token and an empty-string token end pagination. -/
def tokenFalsy : Option Str → Bool
  | none => true
  | some s => s.isEmpty

/-- The outcome of one `requests.post` + `raise_for_status` + `json()`:
either a parsed body, or a `RequestException` (transport error or non-2xx
status). -/
inductive FetchResult where
  | ok (d : ResponseData)
  | err
  deriving DecidableEq

/-- Embedding of the `while True` pagination loop
(src/search_dependencies.py lines 132-194) against a mock transport: the
`i`-th element of `responses` is what the `i`-th issued request returns.
The result pairs the accumulated records with the number of requests
issued.  On an error the loop breaks, keeping the accumulator; on a falsy
next-page token it breaks after processing the page. -/
def runPages (initial_namespace : Str) :
    List FetchResult → List UsageRecord → List UsageRecord × Nat
  | [], acc => (acc, 0)
  | FetchResult.err :: _, acc => (acc, 1)
  | FetchResult.ok d :: rest, acc =>
    let acc2 := processPage initial_namespace (objectsOf d) acc
    if tokenFalsy (tokenOf d) then (acc2, 1)
    else
      let r := runPages initial_namespace rest acc2
      (r.1, r.2 + 1)

/-- Embedding of `search_dependency_usage` (src/search_dependencies.py
lines 84-196), starting from an empty accumulator. -/
def search_dependency_usage (initial_namespace : Str) (responses : List FetchResult) :
    List UsageRecord × Nat :=
  runPages initial_namespace responses []

/-- Convenience constructor for a fully-populated response body. -/
def mkResp (objs : List RawObject) (tok : Option Str) : ResponseData :=
  ⟨some ⟨some ⟨some ⟨some objs, some ⟨tok⟩⟩⟩⟩⟩

/-- A raw object with every optional block absent. -/
def emptyRawObject : RawObject := ⟨none, none, none⟩

theorem processPage_eq (initial : Str) (objs : List RawObject) (acc : List UsageRecord) :
    processPage initial objs acc = acc ++ objs.map (normalizeObj initial) := by
  induction objs generalizing acc with
  | nil => simp [processPage]
  | cons o os ih =>
    simp only [processPage, List.foldl_cons, List.map_cons] at ih ⊢
    rw [ih]
    simp

theorem runPages_ok_pages (initial : Str) (ps : List ResponseData)
    (rest : List FetchResult) (acc : List UsageRecord)
    (h : ∀ p ∈ ps, tokenFalsy (tokenOf p) = false) :
    runPages initial (ps.map FetchResult.ok ++ rest) acc
      = ((runPages initial rest
            (acc ++ (ps.map (fun d => (objectsOf d).map (normalizeObj initial))).flatten)).1,
         (runPages initial rest
            (acc ++ (ps.map (fun d => (objectsOf d).map (normalizeObj initial))).flatten)).2
           + ps.length) := by
  induction ps generalizing acc with
  | nil => simp
  | cons p ps' ih =>
    have hp : tokenFalsy (tokenOf p) = false := h p (List.mem_cons_self p ps')
    have hps' : ∀ q ∈ ps', tokenFalsy (tokenOf q) = false :=
      fun q hq => h q (List.mem_cons_of_mem p hq)
    simp only [List.map_cons, List.cons_append, runPages, hp, Bool.false_eq_true, if_false,
      processPage_eq, List.flatten_cons]
    simp only [List.append_eq]
    rw [ih _ hps']
    simp [List.append_assoc]
    omega

/-- C1: a transport error or non-2xx response on the request after the
successful pages `ps` stops pagination at once — the result does not depend
on `junk` (no later request is issued, so `ps.length + 1` requests total)
and equals exactly the records normalized from the already-fetched pages. -/
theorem search_stops_on_error (initial : Str) (ps : List ResponseData)
    (junk : List FetchResult)
    (h : ∀ p ∈ ps, tokenFalsy (tokenOf p) = false) :
    search_dependency_usage initial (ps.map FetchResult.ok ++ FetchResult.err :: junk)
      = ((ps.map (fun d => (objectsOf d).map (normalizeObj initial))).flatten, ps.length + 1) := by
  unfold search_dependency_usage
  rw [runPages_ok_pages initial ps (FetchResult.err :: junk) [] h]
  simp [runPages]
  omega

/-- C3: with `ps.length` pages carrying a non-empty token followed by a
final page whose token is absent or empty, the loop issues exactly
`ps.length + 1` requests, processes every page including the final one,
and terminates (the result does not depend on `junk`). -/
theorem search_pagination_exact (initial : Str) (ps : List ResponseData)
    (last : ResponseData) (junk : List FetchResult)
    (h1 : ∀ p ∈ ps, tokenFalsy (tokenOf p) = false)
    (h2 : tokenFalsy (tokenOf last) = true) :
    search_dependency_usage initial (ps.map FetchResult.ok ++ FetchResult.ok last :: junk)
      = (((ps ++ [last]).map (fun d => (objectsOf d).map (normalizeObj initial))).flatten,
         ps.length + 1) := by
  unfold search_dependency_usage
  rw [runPages_ok_pages initial ps (FetchResult.ok last :: junk) [] h1]
  simp [runPages, h2, processPage_eq]
  omega

/-- A fully-populated sample raw object for concrete checks. -/
def sampleObj : RawObject :=
  { spec := some
      { dependency_data := some
          { package_name := some "npm://lodash".toList
            resolved_version := some "4.17.21".toList
            scope := some "dev".toList }
        importer_data := some
          { project_uuid := some "uuid-1".toList
            package_version_name := some "pkg-1".toList } }
    meta := some
      { references := some
          [(projectKeyLit,
            { list := some { objects := some [{ meta := some { name := some "proj".toList } }] } })] }
    tenant_meta := some { nspace := some "ns1".toList } }

theorem search_stops_on_error_witness :
    (∀ p ∈ [mkResp [sampleObj] (some "tok".toList)], tokenFalsy (tokenOf p) = false)
    ∧ search_dependency_usage "ns0".toList
        ([mkResp [sampleObj] (some "tok".toList)].map FetchResult.ok
          ++ FetchResult.err :: [FetchResult.ok (mkResp [sampleObj] none)])
      = (([mkResp [sampleObj] (some "tok".toList)].map
            (fun d => (objectsOf d).map (normalizeObj "ns0".toList))).flatten, 2) :=
  ⟨by decide, search_stops_on_error _ _ _ (by decide)⟩

theorem search_pagination_exact_witness :
    (∀ p ∈ [mkResp [sampleObj] (some "tok".toList)], tokenFalsy (tokenOf p) = false)
    ∧ tokenFalsy (tokenOf (mkResp [emptyRawObject] none)) = true
    ∧ search_dependency_usage "ns0".toList
        ([mkResp [sampleObj] (some "tok".toList)].map FetchResult.ok
          ++ FetchResult.ok (mkResp [emptyRawObject] none) :: [FetchResult.err])
      = ((([mkResp [sampleObj] (some "tok".toList)] ++ [mkResp [emptyRawObject] none]).map
            (fun d => (objectsOf d).map (normalizeObj "ns0".toList))).flatten, 2) :=
  ⟨by decide, by decide, search_pagination_exact _ _ _ _ (by decide) (by decide)⟩

/-! ## Field-level characterization of the normalizer -/

theorem normalizeObj_nspace (initial : Str) (obj : RawObject) :
    (normalizeObj initial obj).nspace
      = ((obj.tenant_meta.bind TenantMeta.nspace).getD initial) := by
  rcases obj with ⟨os, om, ot⟩
  rcases ot with _ | ot <;> rfl

theorem normalizeObj_dependency_name (initial : Str) (obj : RawObject) :
    (normalizeObj initial obj).dependency_name
      = ((obj.spec.bind SpecBlock.dependency_data).bind DepData.package_name).getD [] := by
  rcases obj with ⟨os, om, ot⟩
  rcases os with _ | ⟨dd, idata⟩
  · rfl
  · rcases dd with _ | dd <;> rfl

theorem normalizeObj_dependency_version (initial : Str) (obj : RawObject) :
    (normalizeObj initial obj).dependency_version
      = ((obj.spec.bind SpecBlock.dependency_data).bind DepData.resolved_version).getD [] := by
  rcases obj with ⟨os, om, ot⟩
  rcases os with _ | ⟨dd, idata⟩
  · rfl
  · rcases dd with _ | dd <;> rfl

theorem normalizeObj_dependency_scope (initial : Str) (obj : RawObject) :
    (normalizeObj initial obj).dependency_scope
      = ((obj.spec.bind SpecBlock.dependency_data).bind DepData.scope).getD [] := by
  rcases obj with ⟨os, om, ot⟩
  rcases os with _ | ⟨dd, idata⟩
  · rfl
  · rcases dd with _ | dd <;> rfl

theorem normalizeObj_project_uuid (initial : Str) (obj : RawObject) :
    (normalizeObj initial obj).project_uuid
      = ((obj.spec.bind SpecBlock.importer_data).bind ImporterData.project_uuid).getD [] := by
  rcases obj with ⟨os, om, ot⟩
  rcases os with _ | ⟨dd, idata⟩
  · rfl
  · rcases idata with _ | idata <;> rfl

theorem normalizeObj_parent_pkg (initial : Str) (obj : RawObject) :
    (normalizeObj initial obj).parent_package_version_name
      = ((obj.spec.bind SpecBlock.importer_data).bind ImporterData.package_version_name).getD [] := by
  rcases obj with ⟨os, om, ot⟩
  rcases os with _ | ⟨dd, idata⟩
  · rfl
  · rcases idata with _ | idata <;> rfl

/-- The source path of the `project_name` field: the `meta.name` of the
first object listed under the `Project` reference, when the reference is
present and its object list is non-empty. -/
def projectNameSource (obj : RawObject) : Option Str :=
  (lookupKey projectKeyLit (((obj.meta.getD emptyMetaBlock).references).getD [])).bind
    fun ref =>
      match ((ref.list.getD emptyRefListBlock).objects).getD [] with
      | [] => none
      | p :: _ => (p.meta.getD emptyMetaInfo).name

theorem normalizeObj_project_name (initial : Str) (obj : RawObject) :
    (normalizeObj initial obj).project_name = (projectNameSource obj).getD [] := by
  rcases obj with ⟨os, om, ot⟩
  cases hl : lookupKey projectKeyLit (((om.getD emptyMetaBlock).references).getD []) with
  | none => simp [normalizeObj, projectNameSource, hl]
  | some ref =>
    cases hobjs : ((ref.list.getD emptyRefListBlock).objects).getD [] with
    | nil => simp [normalizeObj, projectNameSource, hl, hobjs]
    | cons p rest =>
      cases hn : (p.meta.getD emptyMetaInfo).name with
      | none => simp [normalizeObj, projectNameSource, hl, hobjs, hn]
      | some nm => simp [normalizeObj, projectNameSource, hl, hobjs, hn]

/-- C4: the page loop appends exactly one record per raw object (no
filtering, no failure), and each of the seven fields defaults to the empty
string when its source path is absent — except `nspace`, which defaults to
the namespace the query was issued against when the raw object has no
`tenant_meta` block. -/
theorem normalize_total_defaults (initial : Str) (objs : List RawObject)
    (acc : List UsageRecord) (obj : RawObject) :
    processPage initial objs acc = acc ++ objs.map (normalizeObj initial)
    ∧ (obj.tenant_meta = none → (normalizeObj initial obj).nspace = initial)
    ∧ ((obj.spec.bind SpecBlock.dependency_data).bind DepData.package_name = none →
        (normalizeObj initial obj).dependency_name = [])
    ∧ ((obj.spec.bind SpecBlock.dependency_data).bind DepData.resolved_version = none →
        (normalizeObj initial obj).dependency_version = [])
    ∧ ((obj.spec.bind SpecBlock.dependency_data).bind DepData.scope = none →
        (normalizeObj initial obj).dependency_scope = [])
    ∧ ((obj.spec.bind SpecBlock.importer_data).bind ImporterData.project_uuid = none →
        (normalizeObj initial obj).project_uuid = [])
    ∧ ((obj.spec.bind SpecBlock.importer_data).bind ImporterData.package_version_name = none →
        (normalizeObj initial obj).parent_package_version_name = [])
    ∧ (projectNameSource obj = none → (normalizeObj initial obj).project_name = []) := by
  refine ⟨processPage_eq _ _ _, ?_, ?_, ?_, ?_, ?_, ?_, ?_⟩
  · intro h
    rw [normalizeObj_nspace, h]
    rfl
  · intro h
    rw [normalizeObj_dependency_name, h]
    rfl
  · intro h
    rw [normalizeObj_dependency_version, h]
    rfl
  · intro h
    rw [normalizeObj_dependency_scope, h]
    rfl
  · intro h
    rw [normalizeObj_project_uuid, h]
    rfl
  · intro h
    rw [normalizeObj_parent_pkg, h]
    rfl
  · intro h
    rw [normalizeObj_project_name, h]
    rfl

theorem normalize_total_defaults_witness :
    processPage "ns0".toList [emptyRawObject] [] = [] ++ [emptyRawObject].map (normalizeObj "ns0".toList)
    ∧ (normalizeObj "ns0".toList emptyRawObject).nspace = "ns0".toList
    ∧ (normalizeObj "ns0".toList emptyRawObject).dependency_name = []
    ∧ (normalizeObj "ns0".toList emptyRawObject).dependency_version = []
    ∧ (normalizeObj "ns0".toList emptyRawObject).dependency_scope = []
    ∧ (normalizeObj "ns0".toList emptyRawObject).project_uuid = []
    ∧ (normalizeObj "ns0".toList emptyRawObject).parent_package_version_name = []
    ∧ (normalizeObj "ns0".toList emptyRawObject).project_name = [] := by
  have h := normalize_total_defaults "ns0".toList [emptyRawObject] [] emptyRawObject
  exact ⟨h.1, h.2.1 (by decide), h.2.2.1 (by decide), h.2.2.2.1 (by decide),
    h.2.2.2.2.1 (by decide), h.2.2.2.2.2.1 (by decide), h.2.2.2.2.2.2.1 (by decide),
    h.2.2.2.2.2.2.2 (by decide)⟩

/-- C5: when the references map holds key `"Project"` with a non-empty
object list, `project_name` is the `meta.name` of the first listed object;
when the key is absent or the list is empty, `project_name` is the empty
string; in every case `project_uuid` is taken unchanged from
`spec.importer_data.project_uuid` (defaulting to the empty string). -/
theorem project_reference_resolution (initial : Str) (obj : RawObject) :
    (∀ ref p rest nm,
      lookupKey projectKeyLit (((obj.meta.getD emptyMetaBlock).references).getD []) = some ref →
      ((ref.list.getD emptyRefListBlock).objects).getD [] = p :: rest →
      (p.meta.getD emptyMetaInfo).name = some nm →
      (normalizeObj initial obj).project_name = nm)
    ∧ (lookupKey projectKeyLit (((obj.meta.getD emptyMetaBlock).references).getD []) = none →
        (normalizeObj initial obj).project_name = [])
    ∧ (∀ ref,
        lookupKey projectKeyLit (((obj.meta.getD emptyMetaBlock).references).getD []) = some ref →
        ((ref.list.getD emptyRefListBlock).objects).getD [] = [] →
        (normalizeObj initial obj).project_name = [])
    ∧ (normalizeObj initial obj).project_uuid
        = ((obj.spec.bind SpecBlock.importer_data).bind ImporterData.project_uuid).getD [] := by
  refine ⟨?_, ?_, ?_, normalizeObj_project_uuid _ _⟩
  · intro ref p rest nm h1 h2 h3
    rw [normalizeObj_project_name]
    simp [projectNameSource, h1, h2, h3]
  · intro h
    rw [normalizeObj_project_name]
    simp [projectNameSource, h]
  · intro ref h1 h2
    rw [normalizeObj_project_name]
    simp [projectNameSource, h1, h2]

theorem project_reference_resolution_witness :
    (normalizeObj "ns0".toList sampleObj).project_name = "proj".toList
    ∧ (normalizeObj "ns0".toList emptyRawObject).project_name = []
    ∧ (normalizeObj "ns0".toList sampleObj).project_uuid = "uuid-1".toList := by
  have h1 := (project_reference_resolution "ns0".toList sampleObj).1
  have h2 := (project_reference_resolution "ns0".toList emptyRawObject).2.1
  have h3 := (project_reference_resolution "ns0".toList sampleObj).2.2.2
  refine ⟨h1 ⟨some ⟨some [⟨some ⟨some "proj".toList⟩⟩]⟩⟩ ⟨some ⟨some "proj".toList⟩⟩ []
    "proj".toList (by decide) (by decide) (by decide), h2 (by decide), ?_⟩
  rw [h3]
  decide

/-! ## Parser claims -/

/-- C2: for an input of the form `e ++ "://" ++ d ++ "@" ++ v` in which the
first occurrence of `"://"` is the displayed one (no occurrence starts
inside `e`) and the displayed `"@"` is the last one (`v` contains no `"@"`),
parsing splits there and returns ecosystem `e`, dependency `d`, version `v`
and `full_name = e ++ "://" ++ d`. -/
theorem parse_dependency_splits (e d v : Str)
    (h1 : hasSub ecoSep (e ++ [':', '/']) = false)
    (h2 : '@' ∉ v) :
    parse_dependency (e ++ (ecoSep ++ (d ++ '@' :: v)))
      = some { ecosystem := e, dependency := d, version := v,
               full_name := e ++ ecoSep ++ d } := by
  unfold parse_dependency
  rw [splitOnceOn_junction e (d ++ '@' :: v) h1]
  simp only [splitLastOn_junction '@' d v h2]

theorem parse_dependency_splits_witness :
    hasSub ecoSep ("npm".toList ++ [':', '/']) = false
    ∧ '@' ∉ "4.17.21".toList
    ∧ parse_dependency ("npm".toList ++ (ecoSep ++ ("lodash".toList ++ '@' :: "4.17.21".toList)))
        = some { ecosystem := "npm".toList, dependency := "lodash".toList,
                 version := "4.17.21".toList, full_name := "npm".toList ++ ecoSep ++ "lodash".toList }
    ∧ parse_dependency ("maven".toList
        ++ (ecoSep ++ ("org.springframework:spring-core".toList ++ '@' :: "5.3.21".toList)))
        = some { ecosystem := "maven".toList, dependency := "org.springframework:spring-core".toList,
                 version := "5.3.21".toList,
                 full_name := "maven".toList ++ ecoSep ++ "org.springframework:spring-core".toList } :=
  ⟨by decide, by decide,
   parse_dependency_splits _ _ _ (by decide) (by decide),
   parse_dependency_splits _ _ _ (by decide) (by decide)⟩

/-- C10: the parser performs no non-emptiness validation: an empty
ecosystem, an empty dependency name, or an empty version all parse
successfully, the corresponding field being the empty string. -/
theorem parse_no_validation :
    parse_dependency "://name@1.0".toList
      = some { ecosystem := [], dependency := "name".toList, version := "1.0".toList,
               full_name := "://name".toList }
    ∧ parse_dependency "eco://@1.0".toList
      = some { ecosystem := "eco".toList, dependency := [], version := "1.0".toList,
               full_name := "eco://".toList }
    ∧ parse_dependency "eco://name@".toList
      = some { ecosystem := "eco".toList, dependency := "name".toList, version := [],
               full_name := "eco://name".toList } := by
  decide

theorem splitOnceOn_eq_none (sep : Str) (s : Str) (h : hasSub sep s = false) :
    splitOnceOn sep s = none := by
  induction s with
  | nil => rfl
  | cons c rest ih =>
    simp only [hasSub, Bool.or_eq_false_iff] at h
    simp only [splitOnceOn, h.1, Bool.false_eq_true, if_false, ih h.2]

theorem collectDeps_foldl (tokens : List Str) (acc : List DepInfo) :
    tokens.foldl
        (fun acc t =>
          match parse_dependency t with
          | some d => acc ++ [d]
          | none => acc)
        acc
      = acc ++ tokens.filterMap parse_dependency := by
  induction tokens generalizing acc with
  | nil => simp
  | cons t ts ih =>
    cases h : parse_dependency t with
    | none => simp [List.foldl_cons, h, ih, List.filterMap_cons]
    | some d => simp [List.foldl_cons, h, ih, List.filterMap_cons]

/-- C8: inputs missing `"://"`, or whose remainder after the first `"://"`
contains no `"@"`, parse to the skip value `none` (no exception escapes);
the collected list is exactly the valid parses in order (invalid tokens are
skipped), and the run fails with exit status 1 exactly when zero specifiers
parse. -/
theorem parse_failures_skip :
    (∀ s, hasSub ecoSep s = false → parse_dependency s = none)
    ∧ (∀ s e r, splitOnceOn ecoSep s = some (e, r) → '@' ∉ r → parse_dependency s = none)
    ∧ (∀ tokens, collectDeps tokens = tokens.filterMap parse_dependency)
    ∧ (∀ tokens, (collectDeps tokens).isEmpty = true ↔ ∀ t ∈ tokens, parse_dependency t = none) := by
  refine ⟨?_, ?_, ?_, ?_⟩
  · intro s h
    unfold parse_dependency
    rw [splitOnceOn_eq_none ecoSep s h]
  · intro s e r h1 h2
    unfold parse_dependency
    rw [h1]
    simp only [splitLastOn_eq_none '@' r h2]
  · intro tokens
    exact collectDeps_foldl tokens []
  · intro tokens
    rw [show collectDeps tokens = tokens.filterMap parse_dependency from collectDeps_foldl tokens []]
    simp [List.isEmpty_iff]

theorem parse_failures_skip_witness :
    parse_dependency "plain-token".toList = none
    ∧ parse_dependency "eco://no-version".toList = none
    ∧ collectDeps ["npm://lodash@4.17.21".toList, "bad".toList]
        = ["npm://lodash@4.17.21".toList, "bad".toList].filterMap parse_dependency
    ∧ ((collectDeps ["bad".toList]).isEmpty = true
        ↔ ∀ t ∈ ["bad".toList], parse_dependency t = none) :=
  ⟨parse_failures_skip.1 _ (by decide),
   parse_failures_skip.2.1 _ "eco".toList "no-version".toList (by decide) (by decide),
   parse_failures_skip.2.2.1 _,
   parse_failures_skip.2.2.2 _⟩

/-! ## Query construction (C9) -/

/-- Module-level constant `API_URL` (src/search_dependencies.py line 19). -/
def API_URL : Str := "https://api.endorlabs.com/v1".toList

/-- `list_parameters` of the query payload. -/
structure ListParameters where
  filter : Str
  mask : Str
  traverse : Bool
  page_token : Option Str
  deriving DecidableEq

/-- One entry of the `references` array of the query payload. -/
structure ReferenceSpec where
  connect_from : Str
  connect_to : Str
  ref_kind : Str
  ref_mask : Str
  deriving DecidableEq

/-- The JSON body sent to the QUERY API. -/
structure QueryPayload where
  meta_name : Str
  kind : Str
  list_parameters : ListParameters
  references : List ReferenceSpec
  deriving DecidableEq

/-- A request: target URL plus JSON body. -/
structure QueryRequest where
  url : Str
  payload : QueryPayload
  deriving DecidableEq

/-- Embedding of the URL and `query_payload` construction in
`search_dependency_usage` (src/search_dependencies.py lines 88, 96-126). -/
def build_query_request (initial_namespace : Str) (dep : DepInfo) : QueryRequest :=
  { url := API_URL ++ "/namespaces/".toList ++ initial_namespace ++ "/queries".toList
    payload :=
      { meta_name := "Dependencies with Project Info: ".toList ++ dep.full_name
        kind := "DependencyMetadata".toList
        list_parameters :=
          { filter :=
              "context.type==CONTEXT_TYPE_MAIN and spec.dependency_data.package_name==".toList
              ++ dep.full_name
              ++ " and spec.dependency_data.resolved_version==".toList
              ++ dep.version
            mask := "meta.name,spec.dependency_data,spec.importer_data".toList
            traverse := true
            page_token := none }
        references := [{ connect_from := "spec.importer_data.project_uuid".toList
                         connect_to := "uuid".toList
                         ref_kind := "Project".toList
                         ref_mask := "uuid,meta.name".toList }] } }

/-- The pagination-step mutation
`query_payload[...]["list_parameters"]["page_token"] = next_page_token`
(src/search_dependencies.py line 134). -/
def setPageToken (q : QueryRequest) (t : Str) : QueryRequest :=
  { q with payload :=
      { q.payload with list_parameters :=
          { q.payload.list_parameters with page_token := some t } } }

/-- Erase the `page_token` field, for comparing bodies modulo the cursor. -/
def dropPageToken (q : QueryRequest) : QueryRequest :=
  { q with payload :=
      { q.payload with list_parameters :=
          { q.payload.list_parameters with page_token := none } } }

/-- C9: query construction is a pure function of the identifier and the
namespace — the freshly built request carries no page token, requests built
at different pagination steps agree once the `page_token` field is erased
(and equal the token-less build), and the filter is the fixed conjunction
of the three predicates, with the fixed mask and `traverse = true`. -/
theorem query_build_idempotent (initial_namespace : Str) (dep : DepInfo) (t₁ t₂ : Str) :
    (build_query_request initial_namespace dep).payload.list_parameters.page_token = none
    ∧ dropPageToken (setPageToken (build_query_request initial_namespace dep) t₁)
        = dropPageToken (setPageToken (build_query_request initial_namespace dep) t₂)
    ∧ dropPageToken (setPageToken (build_query_request initial_namespace dep) t₁)
        = build_query_request initial_namespace dep
    ∧ (build_query_request initial_namespace dep).payload.list_parameters.filter
        = "context.type==CONTEXT_TYPE_MAIN and spec.dependency_data.package_name==".toList
          ++ dep.full_name
          ++ " and spec.dependency_data.resolved_version==".toList
          ++ dep.version
    ∧ (build_query_request initial_namespace dep).payload.list_parameters.mask
        = "meta.name,spec.dependency_data,spec.importer_data".toList
    ∧ (build_query_request initial_namespace dep).payload.list_parameters.traverse = true :=
  ⟨rfl, rfl, rfl, rfl, rfl, rfl⟩

/-! ## Export stage: flattening, tagging, grouping (C6, C7) -/

/-- A result dict as held in `all_results`: the seven normalized fields
plus the optional `searched_dependency` key, absent at construction and
added by the flattening loop in `main`. -/
structure StoredRecord where
  record : UsageRecord
  searched_dependency : Option Str
  deriving DecidableEq

/-- The in-place mutation `result['searched_dependency'] = dep_name`
(src/search_dependencies.py line 333). -/
def tagRecord (label : Str) (r : StoredRecord) : StoredRecord :=
  { r with searched_dependency := some label }

/-- Embedding of the flattening loop of `main`
(src/search_dependencies.py lines 330-334).  Because the loop mutates the
very dict objects that `all_results` holds, it returns both `flat_results`
(first component) and the state of `all_results` after the loop (second
component) — the latter is what `save_results_json` serializes at line 337. -/
def flattenLoop : List (Str × List StoredRecord) → List StoredRecord × List (Str × List StoredRecord)
  | [] => ([], [])
  | (label, rs) :: rest =>
    let tagged := rs.map (tagRecord label)
    let r := flattenLoop rest
    (tagged ++ r.1, (label, tagged) :: r.2)

/-- `save_results_json` (src/search_dependencies.py lines 198-205) always
attempts the write; there is no early return. -/
def json_file_written (_ : List (Str × List StoredRecord)) : Bool := true

/-- `save_results_csv` (src/search_dependencies.py lines 207-211) returns
before opening the file when `results` is empty, so no CSV file is created
in that case. -/
def csv_file_written (results : List StoredRecord) : Bool := !results.isEmpty

theorem flattenLoop_eq (ar : List (Str × List StoredRecord)) :
    (flattenLoop ar).1 = (ar.map (fun pr => pr.2.map (tagRecord pr.1))).flatten
    ∧ (flattenLoop ar).2 = ar.map (fun pr => (pr.1, pr.2.map (tagRecord pr.1))) := by
  induction ar with
  | nil => exact ⟨rfl, rfl⟩
  | cons pr rest ih =>
    rcases pr with ⟨label, rs⟩
    simp [flattenLoop, ih.1, ih.2]

/-- The literal placeholder used by `display_results` for an empty project
name (src/search_dependencies.py line 248). -/
def unknownProject : Str := "Unknown Project".toList

/-- The grouping key `f"{project_name} ({project_uuid})"` with
`result['project_name'] or 'Unknown Project'`
(src/search_dependencies.py lines 248-249). -/
def projectKeyOf (r : UsageRecord) : Str :=
  (if r.project_name.isEmpty then unknownProject else r.project_name)
    ++ " (".toList ++ r.project_uuid ++ [')']

/-- The nested namespace → project-key → usages dictionaries built by
`display_results`, as insertion-ordered association lists. -/
abbrev Grouped := List (Str × List (Str × List UsageRecord))

/-- Append `r` under project key `pk`, creating the entry at the end when
absent (dict insertion order). -/
def insertInner (pk : Str) (r : UsageRecord) :
    List (Str × List UsageRecord) → List (Str × List UsageRecord)
  | [] => [(pk, [r])]
  | (k, rs) :: rest =>
    if k = pk then (k, rs ++ [r]) :: rest else (k, rs) :: insertInner pk r rest

/-- Append `r` under namespace `ns` and project key `pk`. -/
def insertGrouped (ns pk : Str) (r : UsageRecord) : Grouped → Grouped
  | [] => [(ns, [(pk, [r])])]
  | (n, inner) :: rest =>
    if n = ns then (n, insertInner pk r inner) :: rest
    else (n, inner) :: insertGrouped ns pk r rest

/-- Embedding of the grouping loop of `display_results`
(src/search_dependencies.py lines 245-256). -/
def groupResults (results : List UsageRecord) : Grouped :=
  results.foldl (fun g r => insertGrouped r.nspace (projectKeyOf r) r g) []

/-- All records stored in the leaves of the grouped view. -/
def groupedRecords (g : Grouped) : List UsageRecord :=
  (g.map (fun p => (p.2.map Prod.snd).flatten)).flatten

theorem mem_insertInner (pk : Str) (r : UsageRecord)
    (inner : List (Str × List UsageRecord)) (x : UsageRecord)
    (h : x ∈ ((insertInner pk r inner).map Prod.snd).flatten) :
    x ∈ (inner.map Prod.snd).flatten ∨ x = r := by
  induction inner with
  | nil =>
    simp only [insertInner, List.map_cons, List.map_nil, List.flatten_cons, List.flatten_nil,
      List.append_nil, List.mem_singleton] at h
    exact Or.inr h
  | cons p rest ih =>
    rcases p with ⟨k, rs⟩
    by_cases hk : k = pk
    · rw [show insertInner pk r ((k, rs) :: rest) = (k, rs ++ [r]) :: rest from by
        simp [insertInner, hk]] at h
      simp only [List.map_cons, List.flatten_cons, List.mem_append, List.mem_singleton] at h ⊢
      tauto
    · rw [show insertInner pk r ((k, rs) :: rest) = (k, rs) :: insertInner pk r rest from by
        simp [insertInner, hk]] at h
      simp only [List.map_cons, List.flatten_cons, List.mem_append] at h ⊢
      rcases h with h | h
      · tauto
      · rcases ih h with h' | h' <;> tauto

theorem mem_insertGrouped (ns pk : Str) (r : UsageRecord) (g : Grouped) (x : UsageRecord)
    (h : x ∈ groupedRecords (insertGrouped ns pk r g)) :
    x ∈ groupedRecords g ∨ x = r := by
  induction g with
  | nil =>
    simp only [insertGrouped, groupedRecords, List.map_cons, List.map_nil, List.flatten_cons,
      List.flatten_nil, List.append_nil, List.mem_singleton] at h
    exact Or.inr h
  | cons p rest ih =>
    rcases p with ⟨n, inner⟩
    by_cases hn : n = ns
    · rw [show insertGrouped ns pk r ((n, inner) :: rest) = (n, insertInner pk r inner) :: rest
          from by simp [insertGrouped, hn]] at h
      simp only [groupedRecords, List.map_cons, List.flatten_cons, List.mem_append] at h ⊢
      rcases h with h | h
      · rcases mem_insertInner pk r inner x h with h' | h' <;> tauto
      · tauto
    · rw [show insertGrouped ns pk r ((n, inner) :: rest)
            = (n, inner) :: insertGrouped ns pk r rest from by simp [insertGrouped, hn]] at h
      simp only [groupedRecords, List.map_cons, List.flatten_cons, List.mem_append] at h ⊢
      rcases h with h | h
      · tauto
      · rcases ih h with h' | h' <;> tauto

theorem mem_groupFold (results : List UsageRecord) (g : Grouped) (x : UsageRecord)
    (h : x ∈ groupedRecords
        (results.foldl (fun g r => insertGrouped r.nspace (projectKeyOf r) r g) g)) :
    x ∈ groupedRecords g ∨ x ∈ results := by
  induction results generalizing g with
  | nil => exact Or.inl h
  | cons r rs ih =>
    simp only [List.foldl_cons] at h
    rcases ih _ h with h' | h'
    · rcases mem_insertGrouped _ _ _ _ _ h' with h'' | h''
      · exact Or.inl h''
      · exact Or.inr (by simp [h''])
    · exact Or.inr (by simp [h'])

/-- C6 counterexample: `main` tags each record in place during flattening,
and `save_results_json` runs afterwards over the same shared dicts, so the
mapping it serializes is NOT the records exactly as constructed: for a
concrete one-record result set, the state at JSON-export time differs from
the as-constructed state (the record gained a `searched_dependency` field). -/
theorem json_contains_mutated_records :
    (flattenLoop [("npm://lodash@4.17.21".toList,
        [{ record := ⟨[], [], [], [], [], [], []⟩, searched_dependency := none }])]).2
      ≠ [("npm://lodash@4.17.21".toList,
        [{ record := ⟨[], [], [], [], [], [], []⟩, searched_dependency := none }])] := by
  decide

/-- C6 amended: display and grouping store the constructed records
unchanged, and tagging never alters the seven normalized fields; but the
flattening loop adds `searched_dependency := label` to every record in
place, so the state serialized by the JSON writer is the constructed
mapping with each record so tagged (and the CSV stream is its flattening). -/
theorem export_mutation_behavior (ar : List (Str × List StoredRecord)) (label : Str)
    (r : StoredRecord) (results : List UsageRecord) (x : UsageRecord) :
    (tagRecord label r).record = r.record
    ∧ tagRecord label r = { record := r.record, searched_dependency := some label }
    ∧ (flattenLoop ar).1 = (ar.map (fun pr => pr.2.map (tagRecord pr.1))).flatten
    ∧ (flattenLoop ar).2 = ar.map (fun pr => (pr.1, pr.2.map (tagRecord pr.1)))
    ∧ (x ∈ groupedRecords (groupResults results) → x ∈ results) := by
  refine ⟨rfl, rfl, (flattenLoop_eq ar).1, (flattenLoop_eq ar).2, ?_⟩
  intro h
  rcases mem_groupFold results [] x h with h' | h'
  · simp [groupedRecords] at h'
  · exact h'

theorem export_mutation_behavior_witness :
    (tagRecord "lbl".toList { record := ⟨[], [], [], [], [], [], []⟩, searched_dependency := none }).record
      = (⟨[], [], [], [], [], [], []⟩ : UsageRecord)
    ∧ (flattenLoop [("lbl".toList,
          [{ record := ⟨[], [], [], [], [], [], []⟩, searched_dependency := none }])]).2
        = [("lbl".toList,
          [{ record := ⟨[], [], [], [], [], [], []⟩, searched_dependency := none }])].map
            (fun pr => (pr.1, pr.2.map (tagRecord pr.1)))
    ∧ (⟨[], [], [], [], [], [], []⟩ : UsageRecord) ∈ [(⟨[], [], [], [], [], [], []⟩ : UsageRecord)] := by
  have h := export_mutation_behavior
    [("lbl".toList, [{ record := ⟨[], [], [], [], [], [], []⟩, searched_dependency := none }])]
    "lbl".toList { record := ⟨[], [], [], [], [], [], []⟩, searched_dependency := none }
    [⟨[], [], [], [], [], [], []⟩] ⟨[], [], [], [], [], [], []⟩
  exact ⟨h.1, h.2.2.2.1, h.2.2.2.2 (by decide)⟩

/-- C7 counterexample: a run in which every searched dependency returns
zero usage records reaches the export stage (here: one dependency, one
successful empty page), but `save_results_csv` returns without creating a
file, so both files are NOT produced. -/
theorem csv_not_written_on_empty :
    search_dependency_usage "ns0".toList [FetchResult.ok (mkResp [] none)] = ([], 1)
    ∧ csv_file_written (flattenLoop [("npm://lodash@4.17.21".toList, [])]).1 = false := by
  decide

theorem flatten_tagged_nil (ar : List (Str × List StoredRecord)) :
    (ar.map (fun pr => pr.2.map (tagRecord pr.1))).flatten = [] ↔ ∀ pr ∈ ar, pr.2 = [] := by
  induction ar with
  | nil => simp
  | cons pr rest ih =>
    rcases pr with ⟨l, rs⟩
    simp [ih]

/-- C7 amended: every run reaching the export stage writes the JSON file,
and writes the CSV file exactly when at least one usage record exists
across all searched dependencies; when every dependency returned zero
records the CSV writer returns without creating a file. -/
theorem export_files_behavior (ar : List (Str × List StoredRecord)) :
    json_file_written ar = true
    ∧ (csv_file_written (flattenLoop ar).1 = true ↔ (flattenLoop ar).1 ≠ [])
    ∧ ((flattenLoop ar).1 = [] ↔ ∀ pr ∈ ar, pr.2 = []) := by
  refine ⟨rfl, ?_, ?_⟩
  · simp [csv_file_written, List.isEmpty_iff]
  · rw [(flattenLoop_eq ar).1]
    exact flatten_tagged_nil ar

/-- A sample one-dependency result set for concrete export checks. -/
def sampleAr : List (Str × List StoredRecord) :=
  [("lbl".toList, [{ record := ⟨[], [], [], [], [], [], []⟩, searched_dependency := none }])]

theorem export_files_behavior_witness :
    json_file_written sampleAr = true
    ∧ (csv_file_written (flattenLoop sampleAr).1 = true ↔ (flattenLoop sampleAr).1 ≠ [])
    ∧ ((flattenLoop sampleAr).1 = [] ↔ ∀ pr ∈ sampleAr, pr.2 = []) :=
  export_files_behavior sampleAr
